import Mathlib

/-!
Verification of the routing, fallback and context-assembly subsystem of the
Jarvis-x repository, as a shallow embedding in Lean 4.

Embedding conventions:
* Python strings are Lean `String`; `str.lower`, `str.strip`, `str.split()`
  and substring containment are modelled character-wise on `List Char`
  (`Char.toLower` models the ASCII case mapping used by the keyword lists).
* Python floats (model quality scores) are modelled as `ℚ`; every score in
  the registry is an exact decimal, and `ℚ`-order agrees with float order on
  those values.
* Python `min`/`max` with a key function is a left fold that replaces the
  current best only on a strictly better key, hence it returns the first
  extremal element (`pyBest`).
* Python's stable `sorted` is modelled by `List.insertionSort`, which is the
  stable sort for the given relation.
* Exceptions are modelled with `Except`/`Option`: `RuntimeError` raised by
  `select_model` becomes `Except SelectError`, a `ProviderError` raised by a
  provider call becomes `Except String` (the error message), and an
  exception that would escape `process_message` (the `ValueError` of
  `min`/`max` on an empty sequence) makes the orchestrator functions return
  `none`.
* Async generation is modelled as a pure function of the request: a
  provider's behaviour is a record of an availability flag, a `generate`
  function and a stream function returning the emitted fragments plus an
  optional terminal error.
-/

/-! ## Python string primitives (jarvis/ai/model_router.py helpers) -/

/-- Whitespace characters recognised by Python's `str.strip` / `str.split`
(ASCII fragment). -/
def pyIsSpace (c : Char) : Bool :=
  c = ' ' || c = '\t' || c = '\n' || c = '\r' || c = '\x0b' || c = '\x0c'

/-- Python `str.strip()`: drop leading and trailing whitespace. -/
def pyStrip (l : List Char) : List Char :=
  (((l.dropWhile pyIsSpace).reverse).dropWhile pyIsSpace).reverse

/-- Helper for `wordCount`: `inWord` records whether the previous character
was part of a word. -/
def wordCountAux : Bool → List Char → Nat
  | _, [] => 0
  | inWord, c :: cs =>
    if pyIsSpace c then wordCountAux false cs
    else (if inWord then 0 else 1) + wordCountAux true cs

/-- Number of tokens of Python `len(text.split())`: maximal runs of
non-whitespace characters. -/
def wordCount (l : List Char) : Nat := wordCountAux false l

/-- Python substring containment `needle in hay`. -/
def isSubstr (needle : List Char) : List Char → Bool
  | [] => needle.isEmpty
  | c :: t => needle.isPrefixOf (c :: t) || isSubstr needle t

/-- Lowercased, stripped text that `ModelRouter.classify_task` computes:
`user_input.lower().strip()`. -/
def normalizeText (s : String) : List Char :=
  pyStrip (s.data.map Char.toLower)

/-! ## Data model (jarvis/ai/model_router.py) -/

/-- Task complexity tiers (`TaskComplexity` enum). -/
inductive TaskComplexity where
  | trivial
  | simple
  | moderate
  | complex
deriving DecidableEq, Repr

/-- Model descriptor (`ModelConfig` dataclass). Quality score is a float in
the source, modelled as `ℚ`. -/
structure ModelConfig where
  name : String
  provider : String
  latency_ms : Nat
  quality_score : ℚ
  offline_capable : Bool
deriving DecidableEq, Repr

/-- The pre-configured registry `_MODEL_REGISTRY`. -/
def MODEL_REGISTRY : List ModelConfig :=
  [ ⟨"llama-3.1-8b-instant", "groq", 300, 0.80, false⟩,
    ⟨"mixtral-8x7b-32768", "groq", 600, 0.88, false⟩,
    ⟨"llama-3.3-70b-versatile", "groq", 800, 0.95, false⟩,
    ⟨"google/gemini-2.0-flash-exp:free", "openrouter", 400, 0.85, false⟩,
    ⟨"meta-llama/llama-3.3-70b-instruct:free", "openrouter", 500, 0.90, false⟩,
    ⟨"deepseek/deepseek-r1:free", "openrouter", 2000, 0.93, false⟩,
    ⟨"phi3:mini", "ollama", 3000, 0.65, true⟩,
    ⟨"mistral:7b", "ollama", 5000, 0.75, true⟩,
    ⟨"qwen2.5:3b", "ollama", 4000, 0.60, true⟩ ]

/-- The `_COMPLEX_KEYWORDS` set (iteration order is irrelevant: only `any`
is applied to it). -/
def COMPLEX_KEYWORDS : List String :=
  [ "explain", "analyze", "compare", "summarize", "write", "create",
    "generate", "design", "implement", "solve", "tushuntir", "tahlil",
    "solishtir", "yoz", "yaratish", "ishlab chiq", "qanday qilib",
    "nima uchun", "why", "how", "difference", "pros and cons" ]

/-- The `_TRIVIAL_KEYWORDS` set. -/
def TRIVIAL_KEYWORDS : List String :=
  [ "hi", "hello", "salom", "assalomu alaykum", "hey", "thanks", "rahmat",
    "ok", "yes", "no", "ha", "yo\x27q", "bye", "xayr" ]

/-- Python `any(kw in text for kw in _TRIVIAL_KEYWORDS)`. -/
def hasTrivialKw (text : List Char) : Bool :=
  TRIVIAL_KEYWORDS.any (fun kw => isSubstr kw.data text)

/-- Python `any(kw in text for kw in _COMPLEX_KEYWORDS)`. -/
def hasComplexKw (text : List Char) : Bool :=
  COMPLEX_KEYWORDS.any (fun kw => isSubstr kw.data text)

/-- The classifier `ModelRouter.classify_task`. -/
def classify_task (user_input : String) : TaskComplexity :=
  let text := normalizeText user_input
  if wordCount text ≤ 3 ∧ hasTrivialKw text = true then .trivial
  else if hasTrivialKw text = true then .simple
  else if hasComplexKw text = true ∨ 20 < wordCount text then .complex
  else if 8 < wordCount text then .moderate
  else .simple

/-! ## Model selection (ModelRouter.select_model) -/

/-- The `RuntimeError`s raised by `select_model`, plus the `ValueError` that
`min`/`max` raises on an empty sequence (reachable only with an empty
registry and no active filter). -/
inductive SelectError where
  | providers (ps : List String)
  | offline
  | valueError
deriving DecidableEq, Repr

/-- Python `repr` of a list of strings, used in the f-string of the
"No models available" error. -/
def pyListRepr (l : List String) : String :=
  "[" ++ String.intercalate ", " (l.map (fun s => "\x27" ++ s ++ "\x27")) ++ "]"

/-- The message text `str(exc)` of each selection error. -/
def SelectError.message : SelectError → String
  | .providers ps => "No models available for providers: " ++ pyListRepr ps
  | .offline => "No offline-capable models available."
  | .valueError => "min() arg is an empty sequence"

/-- Python `min(candidates, key=...)` / `max(candidates, key=...)`: fold over
the tail, replacing the current best exactly when the key is strictly
smaller.  `max` is recovered with a negated key. -/
def pyBest {α : Type} [LinearOrder α] (key : ModelConfig → α)
    (m : ModelConfig) (ms : List ModelConfig) : ModelConfig :=
  ms.foldl (fun best x => if key x < key best then x else best) m

/-- The router method `ModelRouter.select_model`. -/
def select_model (registry : List ModelConfig) (user_input : String)
    (force_offline : Bool) (available_providers : Option (List String)) :
    Except SelectError ModelConfig :=
  let complexity := classify_task user_input
  let step1 : Except SelectError (List ModelConfig) :=
    match available_providers with
    | none => .ok registry
    | some ps =>
      let c := registry.filter (fun m => ps.contains m.provider)
      if c.isEmpty then .error (.providers ps) else .ok c
  match step1 with
  | .error e => .error e
  | .ok cs =>
    let step2 : Except SelectError (List ModelConfig) :=
      if force_offline then
        let c := cs.filter (fun m => m.offline_capable)
        if c.isEmpty then .error .offline else .ok c
      else .ok cs
    match step2 with
    | .error e => .error e
    | .ok cs2 =>
      match cs2 with
      | [] => .error .valueError
      | c :: crest =>
        if complexity = .trivial ∨ complexity = .simple then
          .ok (pyBest (fun m => m.latency_ms) c crest)
        else
          .ok (pyBest (fun m => -m.quality_score) c crest)

/-- The router method `ModelRouter.get_models_except`. -/
def get_models_except (registry : List ModelConfig) (model_name : String) :
    List ModelConfig :=
  registry.filter (fun m => m.name != model_name)

/-- Candidate set that survives both filtering stages of `select_model`
(provider filter, then offline filter). -/
def eligibleCandidates (registry : List ModelConfig) (force_offline : Bool)
    (available_providers : Option (List String)) : List ModelConfig :=
  let c1 := match available_providers with
    | none => registry
    | some ps => registry.filter (fun m => ps.contains m.provider)
  if force_offline then c1.filter (fun m => m.offline_capable) else c1

/-! ## Memory model (jarvis/memory/) -/

/-- An OpenAI-format message dict. -/
structure Msg where
  role : String
  content : String
deriving DecidableEq, Repr

/-- Short-term memory (`ShortTermMemory`): per-session buffers, modelled as
a total map from session key to buffer (the `defaultdict` of the source,
empty by default). -/
structure ShortTermMemory where
  limit : Nat
  store : String → List Msg

/-- The constructor `ShortTermMemory.__init__`, which applies
`max(1, limit)`. -/
def ShortTermMemory.init (limit : Nat) : ShortTermMemory :=
  ⟨max 1 limit, fun _ => []⟩

/-- Messages whose role is `"system"` (the pinned messages). -/
def systemMsgs (l : List Msg) : List Msg :=
  l.filter (fun m => m.role == "system")

/-- Messages whose role is not `"system"`. -/
def nonSystemMsgs (l : List Msg) : List Msg :=
  l.filter (fun m => m.role != "system")

/-- The trimming step `ShortTermMemory._trim` applied to one buffer. -/
def trimBuf (limit : Nat) (buf : List Msg) : List Msg :=
  if buf.length ≤ limit then buf
  else
    let system_msgs := systemMsgs buf
    let non_system := nonSystemMsgs buf
    let budget := limit - system_msgs.length
    let trimmed :=
      if 0 < budget then non_system.drop (non_system.length - budget) else []
    system_msgs ++ trimmed

/-- The method `ShortTermMemory.add`: append, then trim. -/
def ShortTermMemory.add (st : ShortTermMemory) (sid role content : String) :
    ShortTermMemory :=
  { st with
    store := fun s =>
      if s = sid then trimBuf st.limit (st.store sid ++ [⟨role, content⟩])
      else st.store s }

/-- The method `ShortTermMemory.get_context`. -/
def ShortTermMemory.get_context (st : ShortTermMemory) (sid : String) :
    List Msg :=
  st.store sid

/-- One search result of `LongTermMemory.search`.  The source returns
`{text, distance, metadata}`; the distance (a float produced by the external
vector store) and the metadata are not inspected by any core logic, so only
the text is modelled. -/
structure MemoryHit where
  text : String
deriving DecidableEq, Repr

/-- One record stored by `LongTermMemory.store`: the document text plus the
`session_id` metadata tag. -/
structure LTRecord where
  text : String
  session_id : String
deriving DecidableEq, Repr

/-- Long-term memory (`LongTermMemory`) in its available state: the list of
appended records, and the similarity search of the external vector store as
an uninterpreted function (its ranking algorithm is an external dependency).
The unavailable state is `Option.none` at the `MemoryManager` level, exactly
as `MemoryManager.__init__` keeps `self.long = None` when ChromaDB is
unavailable. -/
structure LongTermMemory where
  records : List LTRecord
  searchFn : String → Nat → List MemoryHit

/-- The method `LongTermMemory.store` (append-only, auto-generated id not
modelled). -/
def LongTermMemory.store (lt : LongTermMemory) (text sid : String) :
    LongTermMemory :=
  { lt with records := lt.records ++ [⟨text, sid⟩] }

/-- The method `LongTermMemory.search`. -/
def LongTermMemory.search (lt : LongTermMemory) (query : String) (n : Nat) :
    List MemoryHit :=
  lt.searchFn query n

/-- The `MemoryManager`: a short-term store plus an optional long-term
store. -/
structure MemoryManager where
  short : ShortTermMemory
  long : Option LongTermMemory

/-- The method `MemoryManager.add`. -/
def MemoryManager.add (mm : MemoryManager) (sid role content : String) :
    MemoryManager :=
  { mm with short := mm.short.add sid role content }

/-- The method `MemoryManager.save_interaction`. -/
def MemoryManager.save_interaction (mm : MemoryManager)
    (sid user_msg assistant_msg : String) : MemoryManager :=
  { short := (mm.short.add sid "user" user_msg).add sid "assistant" assistant_msg
    long :=
      match mm.long with
      | none => none
      | some lt =>
        some (lt.store ("User: " ++ user_msg ++ "\nAssistant: " ++ assistant_msg) sid) }

/-- The enumerated list `memory_text` built inside
`MemoryManager.build_context`. -/
def memoryText (memories : List MemoryHit) : String :=
  String.intercalate "\n"
    (memories.enum.map (fun p => "[Memory " ++ toString (p.1 + 1) ++ "]: " ++ p.2.text))

/-- The method `MemoryManager.build_context`. -/
def MemoryManager.build_context (mm : MemoryManager) (sid current_query : String) :
    List Msg :=
  let short_ctx := mm.short.get_context sid
  match mm.long with
  | none => short_ctx
  | some lt =>
    let memories := lt.search current_query 3
    if memories.isEmpty then short_ctx
    else
      ⟨"system", "Relevant past interactions:\n" ++ memoryText memories⟩ :: short_ctx

/-! ## Orchestrator (jarvis/core/orchestrator.py) -/

/-- The system prompt `_SYSTEM_PROMPT`. -/
def SYSTEM_PROMPT : String :=
  "You are JARVIS-X, a next-generation AI assistant. " ++
  "You are multilingual and can respond fluently in both Uzbek and English. " ++
  "Always detect the language of the user\x27s message and reply in the same language. " ++
  "You are helpful, concise, and precise. " ++
  "If asked who you are, introduce yourself as JARVIS-X, an AI assistant."

/-- The fixed unavailability sentinel returned when every attempt fails. -/
def UNAVAILABLE_MSG : String :=
  "I\x27m currently unavailable. Please check your API key or internet connection."

/-- Pure model of one provider's behaviour behind the `BaseProvider`
contract: the `is_available` flag, `generate` (full text or a
`ProviderError` carrying its message), and `generate_stream` (the fragments
emitted before normal completion, or before a terminal `ProviderError`). -/
structure ProviderB where
  avail : Bool
  generate : List Msg → String → Except String String
  genStream : List Msg → String → List String × Option String

/-- The orchestrator state: the provider dict (an insertion-ordered
association list, as a Python dict), the router's registry, and the memory
manager. -/
structure Orchestrator where
  providers : List (String × ProviderB)
  registry : List ModelConfig
  memory : MemoryManager

/-- Python `self._providers.get(name)`. -/
def lookupProvider (ps : List (String × ProviderB)) (name : String) :
    Option ProviderB :=
  (ps.find? (fun pr => pr.1 == name)).map (fun pr => pr.2)

/-- The method `JarvisOrchestrator.get_available_providers`. -/
def getAvailableProviders (ps : List (String × ProviderB)) : List String :=
  (ps.filter (fun pr => pr.2.avail)).map (fun pr => pr.1)

/-- Whether `providers.get(name)` yields an available provider. -/
def providerAvailable (ps : List (String × ProviderB)) (name : String) : Bool :=
  match lookupProvider ps name with
  | some p => p.avail
  | none => false

/-- The `available_providers=available or None` argument of the two select
calls: Python's `or` maps an empty list to `None`. -/
def availArg (o : Orchestrator) : Option (List String) :=
  let available := getAvailableProviders o.providers
  if available.isEmpty then none else some available

/-- Latency comparison used by `sorted(fallbacks, key=lambda m: m.latency_ms)`. -/
def latLe (a b : ModelConfig) : Prop := a.latency_ms ≤ b.latency_ms

instance : DecidableRel latLe := fun a b => Nat.decLe a.latency_ms b.latency_ms

instance : IsTotal ModelConfig latLe := ⟨fun a b => Nat.le_total a.latency_ms b.latency_ms⟩

instance : IsTrans ModelConfig latLe := ⟨fun _ _ _ => Nat.le_trans⟩

/-- The fallback loop of `_call_with_fallback`: walk the latency-sorted
fallback list, skipping entries excluded by the offline constraint or whose
provider is missing or unavailable; return the first successful generation,
or the unavailability sentinel. -/
def tryFallbacks (o : Orchestrator) (messages : List Msg) (force_offline : Bool) :
    List ModelConfig → String
  | [] => UNAVAILABLE_MSG
  | fb :: rest =>
    if force_offline && !fb.offline_capable then
      tryFallbacks o messages force_offline rest
    else
      match lookupProvider o.providers fb.provider with
      | some p =>
        if p.avail then
          match p.generate messages fb.name with
          | .ok t => t
          | .error _ => tryFallbacks o messages force_offline rest
        else tryFallbacks o messages force_offline rest
      | none => tryFallbacks o messages force_offline rest

/-- The method `JarvisOrchestrator._call_with_fallback`. -/
def callWithFallback (o : Orchestrator) (messages : List Msg)
    (model_cfg_name model_cfg_provider : String) (force_offline : Bool) : String :=
  let fallback := fun (_ : Unit) =>
    tryFallbacks o messages force_offline
      (List.insertionSort latLe (get_models_except o.registry model_cfg_name))
  match lookupProvider o.providers model_cfg_provider with
  | some p =>
    if p.avail then
      match p.generate messages model_cfg_name with
      | .ok t => t
      | .error _ => fallback ()
    else fallback ()
  | none => fallback ()

/-- The response dict of `process_message`, minus `response_time` (wall-clock
time is not modelled). -/
structure PMResult where
  response : String
  model_used : String
deriving DecidableEq, Repr

/-- The method `JarvisOrchestrator.process_message`.  A `RuntimeError` from
`select_model` is caught; the `ValueError` of an empty `min`/`max` would
escape as an exception, modelled as `none`. -/
def processMessage (o : Orchestrator) (user_input sid : String)
    (force_offline : Bool) : Option (PMResult × MemoryManager) :=
  let context := o.memory.build_context sid user_input
  let messages := ⟨"system", SYSTEM_PROMPT⟩ :: context
  match select_model o.registry user_input force_offline (availArg o) with
  | .error .valueError => none
  | .error e =>
    some (⟨e.message, "none"⟩, o.memory.add sid "assistant" e.message)
  | .ok model_cfg =>
    let response_text :=
      callWithFallback o messages model_cfg.name model_cfg.provider force_offline
    some (⟨response_text, model_cfg.name⟩,
      o.memory.save_interaction sid user_input response_text)

/-- The method `JarvisOrchestrator.process_stream`, returning the sequence
of yielded fragments and the final memory state. -/
def processStream (o : Orchestrator) (user_input sid : String)
    (force_offline : Bool) : Option (List String × MemoryManager) :=
  let context := o.memory.build_context sid user_input
  let messages := ⟨"system", SYSTEM_PROMPT⟩ :: context
  match select_model o.registry user_input force_offline (availArg o) with
  | .error .valueError => none
  | .error e => some ([e.message], o.memory)
  | .ok model_cfg =>
    match lookupProvider o.providers model_cfg.provider with
    | none => some ([UNAVAILABLE_MSG], o.memory)
    | some p =>
      if p.avail then
        match p.genStream messages model_cfg.name with
        | (chunks, some err) => some (chunks ++ [err], o.memory)
        | (chunks, none) =>
          some (chunks,
            o.memory.save_interaction sid user_input (String.join chunks))
      else some ([UNAVAILABLE_MSG], o.memory)

/-! ## Specification-side definitions used to state the claims -/

/-- First model in the list whose provider lookup succeeds and whose
`generate` call succeeds, attempted strictly sequentially; `none` when every
attempt fails. -/
def trySequentially (o : Orchestrator) (messages : List Msg) :
    List ModelConfig → Option String
  | [] => none
  | m :: rest =>
    match lookupProvider o.providers m.provider with
    | some p =>
      match p.generate messages m.name with
      | .ok t => some t
      | .error _ => trySequentially o messages rest
    | none => trySequentially o messages rest

/-- The fallback list as the specification words it: all registry
descriptors except the failed one, filtered by the offline constraint when
active, filtered to currently available providers, stably sorted ascending
by expected latency. -/
def specFallbackList (o : Orchestrator) (failedName : String)
    (force_offline : Bool) : List ModelConfig :=
  List.insertionSort latLe
    (((o.registry.filter (fun m => m.name != failedName)).filter
        (fun m => !force_offline || m.offline_capable)).filter
      (fun m => providerAvailable o.providers m.provider))

/-- Outcome of the primary attempt of `_call_with_fallback`: `none` when the
primary provider is missing or unavailable, otherwise its generation
result. -/
def primaryAttempt (o : Orchestrator) (messages : List Msg)
    (model_cfg_name model_cfg_provider : String) :
    Option (Except String String) :=
  match lookupProvider o.providers model_cfg_provider with
  | some p => if p.avail then some (p.generate messages model_cfg_name) else none
  | none => none

/-! ## Lemmas about the Python min/max fold -/

theorem pyBest_cons {α : Type} [LinearOrder α] (key : ModelConfig → α)
    (m x : ModelConfig) (ms : List ModelConfig) :
    pyBest key m (x :: ms) = pyBest key (if key x < key m then x else m) ms := rfl

/-- Python `min` (respectively `max`, via a negated key) returns the first
element whose key is extremal: everything before it is strictly worse, and
nothing anywhere is better. -/
theorem pyBest_first_extremal {α : Type} [LinearOrder α] (key : ModelConfig → α) :
    ∀ (ms : List ModelConfig) (m : ModelConfig),
      ∃ pre post, m :: ms = pre ++ pyBest key m ms :: post ∧
        (∀ x ∈ pre, key (pyBest key m ms) < key x) ∧
        (∀ x ∈ m :: ms, key (pyBest key m ms) ≤ key x)
  | [], m => ⟨[], [], rfl, by simp, by simp [pyBest]⟩
  | x :: ms, m => by
    rw [pyBest_cons]
    by_cases h : key x < key m
    · rw [if_pos h]
      obtain ⟨pre, post, heq, hpre, hall⟩ := pyBest_first_extremal key ms x
      refine ⟨m :: pre, post, ?_, ?_, ?_⟩
      · rw [List.cons_append, ← heq]
      · intro y hy
        rcases List.mem_cons.mp hy with hy | hy
        · exact hy ▸ lt_of_le_of_lt (hall x (List.mem_cons_self x ms)) h
        · exact hpre y hy
      · intro y hy
        rcases List.mem_cons.mp hy with hy | hy
        · exact hy ▸ le_of_lt (lt_of_le_of_lt (hall x (List.mem_cons_self x ms)) h)
        · exact hall y hy
    · rw [if_neg h]
      obtain ⟨pre, post, heq, hpre, hall⟩ := pyBest_first_extremal key ms m
      cases pre with
      | nil =>
        simp only [List.nil_append] at heq
        injection heq with h1 h2
        refine ⟨[], x :: ms, ?_, by simp, ?_⟩
        · rw [List.nil_append, ← h1]
        · intro y hy
          rcases List.mem_cons.mp hy with hy | hy
          · rw [hy, ← h1]
          · rcases List.mem_cons.mp hy with hy | hy
            · rw [hy, ← h1]; exact not_lt.mp h
            · exact hall y (List.mem_cons_of_mem m hy)
      | cons a pre₂ =>
        rw [List.cons_append] at heq
        injection heq with h1 h2
        have hrm : key (pyBest key m ms) < key m := by
          have := hpre a (List.mem_cons_self a pre₂)
          rwa [← h1] at this
        refine ⟨m :: x :: pre₂, post, ?_, ?_, ?_⟩
        · rw [List.cons_append, List.cons_append, ← h2]
        · intro y hy
          rcases List.mem_cons.mp hy with hy | hy
          · exact hy ▸ hrm
          · rcases List.mem_cons.mp hy with hy | hy
            · exact hy ▸ lt_of_lt_of_le hrm (not_lt.mp h)
            · exact hpre y (List.mem_cons_of_mem a hy)
        · intro y hy
          rcases List.mem_cons.mp hy with hy | hy
          · exact hy ▸ hall m (List.mem_cons_self m ms)
          · rcases List.mem_cons.mp hy with hy | hy
            · exact hy ▸ le_of_lt (lt_of_lt_of_le hrm (not_lt.mp h))
            · exact hall y (List.mem_cons_of_mem m hy)

/-- Inversion of a successful `select_model` call: the surviving candidate
list is `eligibleCandidates`, it is non-empty, and the result is the Python
min/max fold over it, keyed by the classified tier. -/
theorem select_model_ok (registry : List ModelConfig) (input : String)
    (fo : Bool) (ap : Option (List String)) (m : ModelConfig)
    (h : select_model registry input fo ap = .ok m) :
    ∃ c crest, eligibleCandidates registry fo ap = c :: crest ∧
      m = (if classify_task input = .trivial ∨ classify_task input = .simple
           then pyBest (fun x => x.latency_ms) c crest
           else pyBest (fun x => -x.quality_score) c crest) := by
  unfold select_model at h
  unfold eligibleCandidates
  cases ap with
  | none =>
    dsimp only at h ⊢
    by_cases hfo : fo = true
    · rw [hfo] at h ⊢
      simp only [if_true] at h ⊢
      by_cases he : (registry.filter (fun x => x.offline_capable)).isEmpty
      · rw [if_pos he] at h; exact absurd h (by simp)
      · rw [if_neg he] at h
        cases hc : registry.filter (fun x => x.offline_capable) with
        | nil => rw [hc] at he; exact absurd rfl he
        | cons c crest =>
          rw [hc] at h
          dsimp only at h
          refine ⟨c, crest, rfl, ?_⟩
          by_cases ht : classify_task input = .trivial ∨ classify_task input = .simple
          · rw [if_pos ht] at h ⊢; injection h with h; exact h.symm
          · rw [if_neg ht] at h ⊢; injection h with h; exact h.symm
    · have hfo' : fo = false := by revert hfo; cases fo <;> simp
      rw [hfo'] at h ⊢
      simp only [if_false, Bool.false_eq_true] at h ⊢
      cases hc : registry with
      | nil => rw [hc] at h; exact absurd h (by simp)
      | cons c crest =>
        rw [hc] at h
        dsimp only at h
        refine ⟨c, crest, rfl, ?_⟩
        by_cases ht : classify_task input = .trivial ∨ classify_task input = .simple
        · rw [if_pos ht] at h ⊢; injection h with h; exact h.symm
        · rw [if_neg ht] at h ⊢; injection h with h; exact h.symm
  | some ps =>
    dsimp only at h ⊢
    by_cases he1 : (registry.filter (fun x => ps.contains x.provider)).isEmpty
    · rw [if_pos he1] at h; exact absurd h (by simp)
    · rw [if_neg he1] at h
      by_cases hfo : fo = true
      · rw [hfo] at h ⊢
        simp only [if_true] at h ⊢
        by_cases he2 : ((registry.filter (fun x => ps.contains x.provider)).filter
            (fun x => x.offline_capable)).isEmpty
        · rw [if_pos he2] at h; exact absurd h (by simp)
        · rw [if_neg he2] at h
          cases hc : (registry.filter (fun x => ps.contains x.provider)).filter
              (fun x => x.offline_capable) with
          | nil => rw [hc] at he2; exact absurd rfl he2
          | cons c crest =>
            rw [hc] at h
            dsimp only at h
            refine ⟨c, crest, rfl, ?_⟩
            by_cases ht : classify_task input = .trivial ∨ classify_task input = .simple
            · rw [if_pos ht] at h ⊢; injection h with h; exact h.symm
            · rw [if_neg ht] at h ⊢; injection h with h; exact h.symm
      · have hfo' : fo = false := by revert hfo; cases fo <;> simp
        rw [hfo'] at h ⊢
        simp only [if_false, Bool.false_eq_true] at h ⊢
        cases hc : registry.filter (fun x => ps.contains x.provider) with
        | nil => rw [hc] at he1; exact absurd rfl he1
        | cons c crest =>
          rw [hc] at h
          dsimp only at h
          refine ⟨c, crest, rfl, ?_⟩
          by_cases ht : classify_task input = .trivial ∨ classify_task input = .simple
          · rw [if_pos ht] at h ⊢; injection h with h; exact h.symm
          · rw [if_neg ht] at h ⊢; injection h with h; exact h.symm

/-- The eligible candidate list is an order-preserving sublist of the
registry, so position in it reflects registration order. -/
theorem eligibleCandidates_sublist (registry : List ModelConfig) (fo : Bool)
    (ap : Option (List String)) :
    List.Sublist (eligibleCandidates registry fo ap) registry := by
  unfold eligibleCandidates
  cases ap with
  | none =>
    cases fo
    · exact List.Sublist.refl registry
    · simp only [if_true]
      exact (List.filter_sublist registry).trans (List.Sublist.refl registry)
  | some ps =>
    cases fo
    · simp only [if_false, Bool.false_eq_true]
      exact List.filter_sublist registry
    · simp only [if_true]
      exact (List.filter_sublist _).trans (List.filter_sublist registry)

/-- C1: on a successful selection, if the input's tier is trivial or simple
the chosen model is the eligible candidate (after provider and offline
filtering) with the globally minimum expected latency; if the tier is
moderate or complex it is the eligible candidate with the globally maximum
quality score.  In both cases every eligible candidate listed before the
chosen one is strictly worse, so ties resolve to the earliest-registered
candidate (the eligible list being an order-preserving sublist of the
registry). -/
theorem select_model_tier_extremal (registry : List ModelConfig) (input : String)
    (fo : Bool) (ap : Option (List String)) (m : ModelConfig)
    (h : select_model registry input fo ap = .ok m) :
    List.Sublist (eligibleCandidates registry fo ap) registry ∧
    ((classify_task input = .trivial ∨ classify_task input = .simple) →
      ∃ pre post, eligibleCandidates registry fo ap = pre ++ m :: post ∧
        (∀ x ∈ pre, m.latency_ms < x.latency_ms) ∧
        (∀ x ∈ eligibleCandidates registry fo ap, m.latency_ms ≤ x.latency_ms)) ∧
    ((classify_task input = .moderate ∨ classify_task input = .complex) →
      ∃ pre post, eligibleCandidates registry fo ap = pre ++ m :: post ∧
        (∀ x ∈ pre, x.quality_score < m.quality_score) ∧
        (∀ x ∈ eligibleCandidates registry fo ap, x.quality_score ≤ m.quality_score)) := by
  obtain ⟨c, crest, helig, hm⟩ := select_model_ok registry input fo ap m h
  refine ⟨eligibleCandidates_sublist registry fo ap, ?_, ?_⟩
  · intro ht
    rw [if_pos ht] at hm
    subst hm
    obtain ⟨pre, post, heq, hpre, hall⟩ :=
      pyBest_first_extremal (fun x => x.latency_ms) crest c
    exact ⟨pre, post, helig.trans heq, hpre,
      fun x hx => hall x (helig ▸ hx)⟩
  · intro ht
    have hts : ¬(classify_task input = .trivial ∨ classify_task input = .simple) := by
      rcases ht with ht | ht <;> rw [ht] <;> simp
    rw [if_neg hts] at hm
    subst hm
    obtain ⟨pre, post, heq, hpre, hall⟩ :=
      pyBest_first_extremal (fun x => -x.quality_score) crest c
    refine ⟨pre, post, helig.trans heq, ?_, ?_⟩
    · exact fun x hx => neg_lt_neg_iff.mp (hpre x hx)
    · exact fun x hx => neg_le_neg_iff.mp (hall x (helig ▸ hx))

/-- The lowest-latency registry entry, chosen for the trivial input of the
specification's Scenario A. -/
def fastestModel : ModelConfig := ⟨"llama-3.1-8b-instant", "groq", 300, 0.80, false⟩

/-- Witness for C1 at a concrete input: `"hi"` is classified trivial over
the real registry and selection returns the 300 ms model. -/
theorem select_model_tier_extremal_witness :
    List.Sublist (eligibleCandidates MODEL_REGISTRY false none) MODEL_REGISTRY ∧
    ((classify_task "hi" = .trivial ∨ classify_task "hi" = .simple) →
      ∃ pre post, eligibleCandidates MODEL_REGISTRY false none = pre ++ fastestModel :: post ∧
        (∀ x ∈ pre, fastestModel.latency_ms < x.latency_ms) ∧
        (∀ x ∈ eligibleCandidates MODEL_REGISTRY false none,
          fastestModel.latency_ms ≤ x.latency_ms)) ∧
    ((classify_task "hi" = .moderate ∨ classify_task "hi" = .complex) →
      ∃ pre post, eligibleCandidates MODEL_REGISTRY false none = pre ++ fastestModel :: post ∧
        (∀ x ∈ pre, x.quality_score < fastestModel.quality_score) ∧
        (∀ x ∈ eligibleCandidates MODEL_REGISTRY false none,
          x.quality_score ≤ fastestModel.quality_score)) :=
  select_model_tier_extremal MODEL_REGISTRY "hi" false none fastestModel (by rfl)

/-- C3: `classify_task` is a pure function of the lowercased, trimmed input
applying exactly the five rules in their precedence order; in particular the
trivial-marker check has priority over the complex-marker check. -/
theorem classify_task_rules (s : String) :
    (wordCount (normalizeText s) ≤ 3 ∧ hasTrivialKw (normalizeText s) = true →
      classify_task s = .trivial) ∧
    (3 < wordCount (normalizeText s) → hasTrivialKw (normalizeText s) = true →
      classify_task s = .simple) ∧
    (hasTrivialKw (normalizeText s) = false →
      (hasComplexKw (normalizeText s) = true ∨ 20 < wordCount (normalizeText s)) →
      classify_task s = .complex) ∧
    (hasTrivialKw (normalizeText s) = false → hasComplexKw (normalizeText s) = false →
      wordCount (normalizeText s) ≤ 20 → 8 < wordCount (normalizeText s) →
      classify_task s = .moderate) ∧
    (hasTrivialKw (normalizeText s) = false → hasComplexKw (normalizeText s) = false →
      wordCount (normalizeText s) ≤ 8 → classify_task s = .simple) := by
  refine ⟨?_, ?_, ?_, ?_, ?_⟩
  · intro h
    simp only [classify_task]
    rw [if_pos h]
  · intro h1 h2
    simp only [classify_task]
    rw [if_neg (fun hc => absurd hc.1 (by omega)), if_pos h2]
  · intro h1 h2
    simp only [classify_task]
    rw [if_neg (fun hc => by rw [h1] at hc; exact absurd hc.2 (by simp)),
      if_neg (fun hc => by rw [h1] at hc; exact absurd hc (by simp)),
      if_pos h2]
  · intro h1 h2 h3 h4
    simp only [classify_task]
    rw [if_neg (fun hc => by rw [h1] at hc; exact absurd hc.2 (by simp)),
      if_neg (fun hc => by rw [h1] at hc; exact absurd hc (by simp)),
      if_neg ?_, if_pos h4]
    intro hc
    rcases hc with hc | hc
    · rw [h2] at hc; exact absurd hc (by simp)
    · omega
  · intro h1 h2 h3
    simp only [classify_task]
    rw [if_neg (fun hc => by rw [h1] at hc; exact absurd hc.2 (by simp)),
      if_neg (fun hc => by rw [h1] at hc; exact absurd hc (by simp)),
      if_neg ?_, if_neg (by omega)]
    intro hc
    rcases hc with hc | hc
    · rw [h2] at hc; exact absurd hc (by simp)
    · omega

/-- Witness for C3: on the concrete input `"hi"` the first rule fires and
the tier is trivial. -/
theorem classify_task_rules_witness : classify_task "hi" = TaskComplexity.trivial :=
  (classify_task_rules "hi").1 ⟨by decide, by decide⟩

/-- Candidate list after the provider-filter stage of `select_model`. -/
def providerFiltered (registry : List ModelConfig)
    (ap : Option (List String)) : List ModelConfig :=
  match ap with
  | none => registry
  | some ps => registry.filter (fun m => ps.contains m.provider)

/-- When the provider filter leaves a non-empty candidate list `cs`, the
rest of `select_model` behaves as a call on `cs` with no provider
constraint. -/
theorem select_model_providerStep (registry : List ModelConfig) (input : String)
    (fo : Bool) (ps : List String) (cs : List ModelConfig)
    (h1 : registry.filter (fun m => ps.contains m.provider) = cs) (hne : cs ≠ []) :
    select_model registry input fo (some ps) = select_model cs input fo none := by
  have hie : cs.isEmpty = false := by simpa [List.isEmpty_iff] using hne
  unfold select_model
  dsimp only
  rw [h1, hie]
  rfl

/-- C5: each filtering stage of `select_model` fails closed.  If the
provider filter leaves no candidates the call fails with the
"providers" error; if the offline filter leaves no candidates (the provider
stage not having failed first) the call fails with the "offline" error.
Both failures are values of the pure function, so there is no side
effect. -/
theorem select_model_fail_closed (registry : List ModelConfig) (input : String) :
    (∀ ps fo, registry.filter (fun m => ps.contains m.provider) = [] →
      select_model registry input fo (some ps) = .error (.providers ps)) ∧
    (∀ ap, (ap = none ∨ providerFiltered registry ap ≠ []) →
      (providerFiltered registry ap).filter (fun m => m.offline_capable) = [] →
      select_model registry input true ap = .error .offline) := by
  constructor
  · intro ps fo h
    unfold select_model
    dsimp only
    rw [h]
    rfl
  · intro ap hne h
    cases ap with
    | none =>
      simp only [providerFiltered] at h
      unfold select_model
      dsimp only
      rw [h]
      rfl
    | some ps =>
      have hne' : registry.filter (fun m => ps.contains m.provider) ≠ [] := by
        rcases hne with hne | hne
        · exact absurd hne (by simp)
        · simpa [providerFiltered] using hne
      simp only [providerFiltered] at h
      rw [select_model_providerStep registry input true ps _ rfl hne']
      unfold select_model
      dsimp only
      rw [h]
      rfl

/-- Witness for C5: an unknown provider constraint yields the "providers"
error over the real registry; a registry with no offline-capable entry
yields the "offline" error under `force_offline`. -/
theorem select_model_fail_closed_witness :
    select_model MODEL_REGISTRY "hi" false (some ["zzz"]) =
      .error (.providers ["zzz"]) ∧
    select_model [fastestModel] "hi" true none = .error .offline :=
  ⟨(select_model_fail_closed MODEL_REGISTRY "hi").1 ["zzz"] false (by rfl),
   (select_model_fail_closed [fastestModel] "hi").2 none (Or.inl rfl) (by rfl)⟩

/-- Elements of the non-system selection do not have the system role. -/
theorem nonSystemMsgs_not_system (old : List Msg) :
    ∀ x ∈ nonSystemMsgs old, (x.role == "system") = false := by
  intro x hx
  have h2 := (List.mem_filter.mp hx).2
  rw [bne_iff_ne] at h2
  exact beq_eq_false_iff_ne.mpr h2

/-- Appending only non-system messages to the pinned messages leaves the
pinned selection unchanged. -/
theorem systemMsgs_append_nonsys (old : List Msg) (t : List Msg)
    (ht : ∀ x ∈ t, (x.role == "system") = false) :
    systemMsgs (systemMsgs old ++ t) = systemMsgs old := by
  unfold systemMsgs
  rw [List.filter_append]
  rw [show (List.filter (fun m => m.role == "system") old).filter
        (fun m => m.role == "system") =
      List.filter (fun m => m.role == "system") old from
    List.filter_eq_self.mpr (fun a ha => (List.mem_filter.mp ha).2)]
  rw [show List.filter (fun m => m.role == "system") t = [] from
    List.filter_eq_nil_iff.mpr (fun a ha => by simp [ht a ha])]
  exact List.append_nil _

/-- Behaviour of one `_trim` pass: the result length respects the limit
unless the pinned system messages alone exceed it (in which case the buffer
is exactly the pinned messages); the pinned selection is preserved; and when
trimming fired the buffer is reconstructed as pinned messages followed by
the most recent `limit - pinned_count` non-system messages. -/
theorem trimBuf_spec (limit : Nat) (old : List Msg) :
    ((trimBuf limit old).length ≤ limit ∨
      (limit < (systemMsgs (trimBuf limit old)).length ∧
        trimBuf limit old = systemMsgs (trimBuf limit old))) ∧
    systemMsgs (trimBuf limit old) = systemMsgs old ∧
    (limit < old.length →
      trimBuf limit old = systemMsgs old ++ (nonSystemMsgs old).drop
        ((nonSystemMsgs old).length - (limit - (systemMsgs old).length))) := by
  by_cases h : old.length ≤ limit
  · unfold trimBuf
    rw [if_pos h]
    exact ⟨Or.inl h, rfl, fun hc => absurd h (by omega)⟩
  · unfold trimBuf
    rw [if_neg h]
    dsimp only
    by_cases hbdg : 0 < limit - (systemMsgs old).length
    · rw [if_pos hbdg]
      have hTmem : ∀ x ∈ (nonSystemMsgs old).drop
          ((nonSystemMsgs old).length - (limit - (systemMsgs old).length)),
          (x.role == "system") = false :=
        fun x hx => nonSystemMsgs_not_system old x (List.mem_of_mem_drop hx)
      have hsys2 := systemMsgs_append_nonsys old _ hTmem
      refine ⟨?_, hsys2, fun _ => rfl⟩
      left
      rw [List.length_append, List.length_drop]
      omega
    · rw [if_neg hbdg]
      have hsys2 := systemMsgs_append_nonsys old [] (fun x hx => by cases hx)
      refine ⟨?_, hsys2, ?_⟩
      · rcases Nat.lt_or_ge limit (systemMsgs old).length with hS | hS
        · refine Or.inr ⟨?_, ?_⟩
          · rw [hsys2]; exact hS
          · rw [hsys2, List.append_nil]
        · left
          rw [List.append_nil]
          omega
      · intro _
        have hz : limit - (systemMsgs old).length = 0 := by omega
        rw [hz, Nat.sub_zero, List.drop_length]

/-- C4: after any `add` the session buffer respects the window invariant:
its length is at most the limit, or it exceeds the limit only because the
pinned system messages alone exceed it (and then the buffer is exactly the
pinned messages); system messages are never evicted; and whenever trimming
fired, the buffer is reconstructed as all pinned system messages followed
by the most recent `limit - pinned_count` non-system messages (none when
`pinned_count ≥ limit`), chronological order being preserved within each
group since both groups are order-preserving selections of the appended
buffer.  The statement holds for every starting state, hence after every
sequence of `add` calls. -/
theorem shortTermMemory_window_invariant (st : ShortTermMemory)
    (sid role content : String) (old buf : List Msg)
    (hold : old = st.store sid ++ [Msg.mk role content])
    (hbuf : buf = (st.add sid role content).store sid) :
    (buf.length ≤ st.limit ∨
      (st.limit < (systemMsgs buf).length ∧ buf = systemMsgs buf)) ∧
    systemMsgs buf = systemMsgs old ∧
    (st.limit < old.length →
      buf = systemMsgs old ++ (nonSystemMsgs old).drop
        ((nonSystemMsgs old).length - (st.limit - (systemMsgs old).length))) := by
  have hb : buf = trimBuf st.limit old := by
    rw [hbuf, hold]
    simp [ShortTermMemory.add]
  rw [hb]
  exact trimBuf_spec st.limit old

/-- A two-message window with one pinned system message, as in the
specification's Scenario D. -/
def demoSTM : ShortTermMemory :=
  ⟨2, fun _ => [⟨"system", "p"⟩, ⟨"user", "u1"⟩]⟩

/-- Witness for C4: adding a third message to a full two-message window
with one pinned system message keeps the invariant. -/
theorem shortTermMemory_window_invariant_witness :
    (((demoSTM.add "s" "assistant" "a1").store "s").length ≤ demoSTM.limit ∨
      (demoSTM.limit <
          (systemMsgs ((demoSTM.add "s" "assistant" "a1").store "s")).length ∧
        (demoSTM.add "s" "assistant" "a1").store "s" =
          systemMsgs ((demoSTM.add "s" "assistant" "a1").store "s"))) ∧
    systemMsgs ((demoSTM.add "s" "assistant" "a1").store "s") =
      systemMsgs (demoSTM.store "s" ++ [Msg.mk "assistant" "a1"]) ∧
    (demoSTM.limit < (demoSTM.store "s" ++ [Msg.mk "assistant" "a1"]).length →
      (demoSTM.add "s" "assistant" "a1").store "s" =
        systemMsgs (demoSTM.store "s" ++ [Msg.mk "assistant" "a1"]) ++
          (nonSystemMsgs (demoSTM.store "s" ++ [Msg.mk "assistant" "a1"])).drop
            ((nonSystemMsgs (demoSTM.store "s" ++ [Msg.mk "assistant" "a1"])).length -
              (demoSTM.limit -
                (systemMsgs (demoSTM.store "s" ++ [Msg.mk "assistant" "a1"])).length))) :=
  shortTermMemory_window_invariant demoSTM "s" "assistant" "a1"
    (demoSTM.store "s" ++ [Msg.mk "assistant" "a1"])
    ((demoSTM.add "s" "assistant" "a1").store "s") rfl rfl

/-- C7: `build_context` returns exactly the short-term messages, preceded by
one synthetic system message enumerating the top long-term results exactly
when the long-term store is available and the similarity search returns at
least one result. -/
theorem build_context_spec (mm : MemoryManager) (sid q : String) :
    (mm.long = none → mm.build_context sid q = mm.short.get_context sid) ∧
    (∀ lt, mm.long = some lt → lt.search q 3 = [] →
      mm.build_context sid q = mm.short.get_context sid) ∧
    (∀ lt, mm.long = some lt → lt.search q 3 ≠ [] →
      mm.build_context sid q =
        Msg.mk "system" ("Relevant past interactions:\n" ++ memoryText (lt.search q 3)) ::
          mm.short.get_context sid) := by
  refine ⟨?_, ?_, ?_⟩
  · intro h
    simp [MemoryManager.build_context, h]
  · intro lt h he
    simp [MemoryManager.build_context, h, he]
  · intro lt h hne
    have hie : (lt.search q 3).isEmpty = false := by
      simpa [List.isEmpty_iff] using hne
    simp [MemoryManager.build_context, h, hie]

/-- Search results returned by the demo long-term store. -/
def demoHits : List MemoryHit := [⟨"r1"⟩, ⟨"r2"⟩]

/-- A concrete available long-term store. -/
def demoLTM : LongTermMemory := ⟨[], fun _ _ => demoHits⟩

/-- A concrete memory manager with an available long-term store. -/
def demoMM : MemoryManager := ⟨demoSTM, some demoLTM⟩

/-- Witness for C7: with two search hits the synthetic system message is
prepended to the short-term messages. -/
theorem build_context_spec_witness :
    demoMM.build_context "s" "q" =
      Msg.mk "system"
          ("Relevant past interactions:\n" ++ memoryText (demoLTM.search "q" 3)) ::
        demoMM.short.get_context "s" :=
  (build_context_spec demoMM "s" "q").2.2 demoLTM rfl (by decide)

/-- C8: `save_interaction` appends the user turn then the assistant turn to
short-term memory and appends exactly one long-term record, tagged with the
session key, whose text combines exactly the one user turn and its paired
assistant turn; and in both orchestrator entry points every long-term write
goes through `save_interaction` after the turn completed — every other
path, including a stream that terminates in an error, leaves long-term
memory unchanged. -/
theorem save_interaction_spec (mm : MemoryManager) (sid u a : String) :
    ((mm.save_interaction sid u a).short =
      (mm.short.add sid "user" u).add sid "assistant" a) ∧
    (mm.long = none → (mm.save_interaction sid u a).long = none) ∧
    (∀ lt, mm.long = some lt →
      (mm.save_interaction sid u a).long =
        some ⟨lt.records ++ [⟨"User: " ++ u ++ "\nAssistant: " ++ a, sid⟩],
          lt.searchFn⟩) ∧
    (∀ o input s fo r mem', processMessage o input s fo = some (r, mem') →
      mem'.long = o.memory.long ∨
      ∃ resp, mem' = o.memory.save_interaction s input resp) ∧
    (∀ o input s fo out mem', processStream o input s fo = some (out, mem') →
      mem'.long = o.memory.long ∨
      ∃ resp, mem' = o.memory.save_interaction s input resp) := by
  refine ⟨rfl, ?_, ?_, ?_, ?_⟩
  · intro h
    simp [MemoryManager.save_interaction, h]
  · intro lt h
    simp [MemoryManager.save_interaction, LongTermMemory.store, h]
  · intro o input s fo r mem' h
    unfold processMessage at h
    dsimp only at h
    cases hsel : select_model o.registry input fo (availArg o) with
    | error e =>
      rw [hsel] at h
      cases e with
      | valueError => exact absurd h (by simp)
      | providers ps =>
        dsimp only at h
        injection h with h
        injection h with h1 h2
        left
        rw [← h2]
        rfl
      | offline =>
        dsimp only at h
        injection h with h
        injection h with h1 h2
        left
        rw [← h2]
        rfl
    | ok mc =>
      rw [hsel] at h
      dsimp only at h
      injection h with h
      injection h with h1 h2
      right
      refine ⟨callWithFallback o (Msg.mk "system" SYSTEM_PROMPT ::
        o.memory.build_context s input) mc.name mc.provider fo, ?_⟩
      exact h2.symm
  · intro o input s fo out mem' h
    unfold processStream at h
    dsimp only at h
    cases hsel : select_model o.registry input fo (availArg o) with
    | error e =>
      rw [hsel] at h
      cases e with
      | valueError => exact absurd h (by simp)
      | providers ps =>
        dsimp only at h
        injection h with h
        injection h with h1 h2
        left
        rw [← h2]
      | offline =>
        dsimp only at h
        injection h with h
        injection h with h1 h2
        left
        rw [← h2]
    | ok mc =>
      rw [hsel] at h
      dsimp only at h
      cases hl : lookupProvider o.providers mc.provider with
      | none =>
        rw [hl] at h
        dsimp only at h
        injection h with h
        injection h with h1 h2
        left
        rw [← h2]
      | some p =>
        rw [hl] at h
        dsimp only at h
        by_cases hav : p.avail = true
        · rw [if_pos hav] at h
          cases hgs : p.genStream (Msg.mk "system" SYSTEM_PROMPT ::
            o.memory.build_context s input) mc.name with
          | mk chunks eopt =>
            rw [hgs] at h
            cases eopt with
            | some err =>
              dsimp only at h
              injection h with h
              injection h with h1 h2
              left
              rw [← h2]
            | none =>
              dsimp only at h
              injection h with h
              injection h with h1 h2
              right
              exact ⟨String.join chunks, h2.symm⟩
        · rw [if_neg hav] at h
          injection h with h
          injection h with h1 h2
          left
          rw [← h2]

/-- Witness for C8 at a concrete memory state: saving one interaction
appends exactly the combined record to the long-term store. -/
theorem save_interaction_spec_witness :
    (demoMM.save_interaction "s" "u" "a").long =
      some ⟨demoLTM.records ++ [⟨"User: " ++ "u" ++ "\nAssistant: " ++ "a", "s"⟩],
        demoLTM.searchFn⟩ :=
  (save_interaction_spec demoMM "s" "u" "a").2.2.1 demoLTM rfl

/-- C9: when routing is exhausted, `process_message` catches the error,
records an assistant turn holding the explanatory message into (short-term)
memory, reports the model used as "none", and returns normally instead of
raising. -/
theorem processMessage_noCandidates (o : Orchestrator) (input sid : String)
    (fo : Bool) (e : SelectError)
    (hsel : select_model o.registry input fo (availArg o) = .error e)
    (hne : e ≠ .valueError) :
    processMessage o input sid fo =
      some (⟨e.message, "none"⟩, o.memory.add sid "assistant" e.message) := by
  unfold processMessage
  dsimp only
  rw [hsel]
  cases e with
  | providers ps => rfl
  | offline => rfl
  | valueError => exact absurd rfl hne

/-- An orchestrator with no providers at all and a registry without
offline-capable entries. -/
def demoOrch : Orchestrator := ⟨[], [fastestModel], demoMM⟩

/-- Witness for C9: forcing offline over an online-only registry is routing
exhaustion, surfaced as a normal assistant turn with model "none". -/
theorem processMessage_noCandidates_witness :
    processMessage demoOrch "hi" "s" true =
      some (⟨SelectError.offline.message, "none"⟩,
        demoOrch.memory.add "s" "assistant" SelectError.offline.message) :=
  processMessage_noCandidates demoOrch "hi" "s" true .offline (by rfl) (by decide)

/-- A successful provider lookup returns a member of the provider dict. -/
theorem lookupProvider_avail_false (ps : List (String × ProviderB))
    (hun : ∀ pr ∈ ps, pr.2.avail = false) :
    ∀ nm p, lookupProvider ps nm = some p → p.avail = false := by
  intro nm p hp
  unfold lookupProvider at hp
  cases hf : List.find? (fun pr => pr.1 == nm) ps with
  | none => rw [hf] at hp; cases hp
  | some pr =>
    rw [hf] at hp
    injection hp with hp
    rw [← hp]
    exact hun pr (List.mem_of_find?_eq_some hf)

/-- With every registered provider unavailable, the whole fallback loop
falls through to the unavailability sentinel. -/
theorem tryFallbacks_allUnavailable (o : Orchestrator) (messages : List Msg)
    (fo : Bool) (hun : ∀ pr ∈ o.providers, pr.2.avail = false) :
    ∀ l, tryFallbacks o messages fo l = UNAVAILABLE_MSG := by
  intro l
  induction l with
  | nil => rfl
  | cons fb rest ih =>
    unfold tryFallbacks
    by_cases hskip : (fo && !fb.offline_capable) = true
    · rw [if_pos hskip]
      exact ih
    · rw [if_neg hskip]
      cases hl : lookupProvider o.providers fb.provider with
      | none => exact ih
      | some p =>
        dsimp only
        rw [lookupProvider_avail_false o.providers hun fb.provider p hl]
        rw [if_neg Bool.false_ne_true]
        exact ih

/-- With every registered provider unavailable, `_call_with_fallback`
returns the unavailability sentinel. -/
theorem callWithFallback_allUnavailable (o : Orchestrator) (messages : List Msg)
    (name prov : String) (fo : Bool)
    (hun : ∀ pr ∈ o.providers, pr.2.avail = false) :
    callWithFallback o messages name prov fo = UNAVAILABLE_MSG := by
  unfold callWithFallback
  dsimp only
  cases hl : lookupProvider o.providers prov with
  | none => exact tryFallbacks_allUnavailable o messages fo hun _
  | some p =>
    dsimp only
    rw [lookupProvider_avail_false o.providers hun prov p hl]
    rw [if_neg Bool.false_ne_true]
    exact tryFallbacks_allUnavailable o messages fo hun _

/-- C10: when every provider reports unavailable, `process_message` passes
`None` (not the empty set) as the provider constraint, so `select_model`
sees the whole registry and does not fail with the "providers" error; the
request then completes with the unavailability sentinel produced by the
fallback path, and the turn is saved. -/
theorem processMessage_allUnavailable (o : Orchestrator) (input sid : String)
    (fo : Bool) (m : ModelConfig)
    (hun : ∀ pr ∈ o.providers, pr.2.avail = false)
    (hsel : select_model o.registry input fo none = .ok m) :
    availArg o = none ∧
    processMessage o input sid fo =
      some (⟨UNAVAILABLE_MSG, m.name⟩,
        o.memory.save_interaction sid input UNAVAILABLE_MSG) := by
  have hga : getAvailableProviders o.providers = [] := by
    unfold getAvailableProviders
    rw [List.filter_eq_nil_iff.mpr (fun pr hpr => by simp [hun pr hpr])]
    rfl
  have hav : availArg o = none := by simp [availArg, hga]
  refine ⟨hav, ?_⟩
  unfold processMessage
  dsimp only
  rw [hav, hsel]
  dsimp only
  rw [callWithFallback_allUnavailable o _ m.name m.provider fo hun]

/-- A provider that is configured but reports unavailable. -/
def unavailProvider : ProviderB :=
  ⟨false, fun _ _ => .ok "x", fun _ _ => ([], none)⟩

/-- An orchestrator whose single provider is unavailable. -/
def unavailOrch : Orchestrator := ⟨[("groq", unavailProvider)], [fastestModel], demoMM⟩

/-- Witness for C10: with the lone provider unavailable the provider
constraint collapses to `None`, selection still succeeds, and the response
is the unavailability sentinel. -/
theorem processMessage_allUnavailable_witness :
    availArg unavailOrch = none ∧
    processMessage unavailOrch "hi" "s" false =
      some (⟨UNAVAILABLE_MSG, fastestModel.name⟩,
        unavailOrch.memory.save_interaction "s" "hi" UNAVAILABLE_MSG) :=
  processMessage_allUnavailable unavailOrch "hi" "s" false fastestModel
    (by decide) (by rfl)

/-- Filtering commutes with ordered insertion into a latency-sorted list. -/
theorem filter_orderedInsert_latLe (p : ModelConfig → Bool) (x : ModelConfig) :
    ∀ ys : List ModelConfig, List.Sorted latLe ys →
      (List.orderedInsert latLe x ys).filter p =
        if p x then List.orderedInsert latLe x (ys.filter p) else ys.filter p
  | [], _ => by cases hpx : p x <;> simp [List.orderedInsert, hpx]
  | y :: ys, hs => by
    have hys : List.Sorted latLe ys := hs.of_cons
    by_cases hxy : latLe x y
    · rw [show List.orderedInsert latLe x (y :: ys) = x :: y :: ys from by
        simp [List.orderedInsert, hxy]]
      by_cases hpx : p x
      · rw [if_pos hpx]
        rw [show (x :: y :: ys).filter p = x :: (y :: ys).filter p from by
          simp [List.filter_cons, hpx]]
        cases hf : (y :: ys).filter p with
        | nil => simp [List.orderedInsert]
        | cons z zs =>
          have hz2 : z ∈ y :: ys := List.mem_of_mem_filter (by
            rw [hf]; exact List.mem_cons_self z zs)
          have hxz : latLe x z := by
            rcases List.mem_cons.mp hz2 with h' | h'
            · rw [h']; exact hxy
            · exact Nat.le_trans hxy (List.rel_of_sorted_cons hs z h')
          simp [List.orderedInsert, hxz]
      · rw [if_neg hpx]
        simp [List.filter_cons, hpx]
    · rw [show List.orderedInsert latLe x (y :: ys) = y :: List.orderedInsert latLe x ys from by
        simp [List.orderedInsert, hxy]]
      have ih := filter_orderedInsert_latLe p x ys hys
      by_cases hpx : p x <;> by_cases hpy : p y <;>
        simp [List.filter_cons, hpx, hpy, ih, List.orderedInsert, hxy]

/-- Filtering commutes with the stable latency sort. -/
theorem filter_insertionSort_latLe (p : ModelConfig → Bool) :
    ∀ l : List ModelConfig,
      (List.insertionSort latLe l).filter p = List.insertionSort latLe (l.filter p)
  | [] => rfl
  | x :: l => by
    have ih := filter_insertionSort_latLe p l
    show (List.orderedInsert latLe x (List.insertionSort latLe l)).filter p = _
    rw [filter_orderedInsert_latLe p x _ (List.sorted_insertionSort latLe _)]
    by_cases hpx : p x
    · rw [if_pos hpx, ih,
        show (x :: l).filter p = x :: l.filter p from by simp [List.filter_cons, hpx]]
      rfl
    · rw [if_neg hpx, ih,
        show (x :: l).filter p = l.filter p from by simp [List.filter_cons, hpx]]

/-- Unfolding of one sequential attempt. -/
theorem trySequentially_cons (o : Orchestrator) (messages : List Msg)
    (m : ModelConfig) (l : List ModelConfig) :
    trySequentially o messages (m :: l) =
      match lookupProvider o.providers m.provider with
      | some p =>
        match p.generate messages m.name with
        | .ok t => some t
        | .error _ => trySequentially o messages l
      | none => trySequentially o messages l := rfl

/-- The fallback loop attempts exactly the models that pass the offline and
availability filters, in list order, and falls back to the sentinel. -/
theorem tryFallbacks_eq_filter (o : Orchestrator) (messages : List Msg) (fo : Bool) :
    ∀ l : List ModelConfig,
      tryFallbacks o messages fo l =
        (trySequentially o messages
          (l.filter (fun m => (!fo || m.offline_capable) &&
            providerAvailable o.providers m.provider))).getD UNAVAILABLE_MSG
  | [] => rfl
  | fb :: rest => by
    have ih := tryFallbacks_eq_filter o messages fo rest
    unfold tryFallbacks
    rw [List.filter_cons]
    by_cases hskip : (fo && !fb.offline_capable) = true
    · rw [if_pos hskip]
      have hP : ((!fo || fb.offline_capable) &&
          providerAvailable o.providers fb.provider) = false := by
        revert hskip; cases fo <;> cases fb.offline_capable <;> simp
      rw [hP]
      simp only [Bool.false_eq_true, if_false]
      exact ih
    · rw [if_neg hskip]
      have h1 : (!fo || fb.offline_capable) = true := by
        revert hskip; cases fo <;> cases fb.offline_capable <;> simp
      cases hl : lookupProvider o.providers fb.provider with
      | none =>
        have hPA : providerAvailable o.providers fb.provider = false := by
          unfold providerAvailable; rw [hl]
        rw [h1, hPA]
        dsimp only
        exact ih
      | some p =>
        dsimp only
        have hPA : providerAvailable o.providers fb.provider = p.avail := by
          unfold providerAvailable; rw [hl]
        by_cases hav : p.avail = true
        · rw [h1, hPA, hav]
          simp only [Bool.and_self, eq_self_iff_true, if_true]
          rw [trySequentially_cons, hl]
          dsimp only
          cases hg : p.generate messages fb.name with
          | ok t => rfl
          | error e => exact ih
        · have hav' : p.avail = false := by revert hav; cases p.avail <;> simp
          rw [h1, hPA, hav']
          simp only [Bool.and_false, Bool.false_eq_true, if_false]
          exact ih

/-- The specification's fallback list is the code's latency-sorted list
restricted to the entries the loop actually attempts. -/
theorem specFallbackList_eq (o : Orchestrator) (failedName : String) (fo : Bool) :
    specFallbackList o failedName fo =
      (List.insertionSort latLe (get_models_except o.registry failedName)).filter
        (fun m => (!fo || m.offline_capable) &&
          providerAvailable o.providers m.provider) := by
  unfold specFallbackList get_models_except
  rw [List.filter_filter]
  rw [filter_insertionSort_latLe]
  congr 1
  apply List.filter_congr
  intro a _
  exact Bool.and_comm _ _

/-- C2: `_call_with_fallback` first attempts the primary provider when it
is present and available; on its `ProviderError`, or when it is missing or
unavailable, the fallbacks are attempted strictly sequentially in exactly
the order of the specification's fallback list (all registry descriptors
except the failed one, filtered by the offline constraint, filtered to
available providers, stably sorted ascending by expected latency), stopping
at the first success; when every attempt fails or none is eligible the
fixed unavailability message is returned, and the function always returns a
string — no generation failure escapes. -/
theorem callWithFallback_fallback_order (o : Orchestrator) :
    (∀ (messages : List Msg) (name prov : String) (fo : Bool),
      callWithFallback o messages name prov fo =
        match primaryAttempt o messages name prov with
        | some (.ok t) => t
        | _ => (trySequentially o messages (specFallbackList o name fo)).getD
            UNAVAILABLE_MSG) ∧
    (∀ (input sid : String) (fo : Bool) (mc : ModelConfig),
      select_model o.registry input fo (availArg o) = .ok mc →
      (∀ t, primaryAttempt o
          (Msg.mk "system" SYSTEM_PROMPT :: o.memory.build_context sid input)
          mc.name mc.provider ≠ some (.ok t)) →
      trySequentially o
          (Msg.mk "system" SYSTEM_PROMPT :: o.memory.build_context sid input)
          (specFallbackList o mc.name fo) = none →
      processMessage o input sid fo =
        some (⟨UNAVAILABLE_MSG, mc.name⟩,
          o.memory.save_interaction sid input UNAVAILABLE_MSG)) := by
  have hmain : ∀ (messages : List Msg) (name prov : String) (fo : Bool),
      callWithFallback o messages name prov fo =
        match primaryAttempt o messages name prov with
        | some (.ok t) => t
        | _ => (trySequentially o messages (specFallbackList o name fo)).getD
            UNAVAILABLE_MSG := by
    intro messages name prov fo
    have hfb : tryFallbacks o messages fo
        (List.insertionSort latLe (get_models_except o.registry name)) =
        (trySequentially o messages (specFallbackList o name fo)).getD
          UNAVAILABLE_MSG := by
      rw [tryFallbacks_eq_filter, specFallbackList_eq]
    unfold callWithFallback primaryAttempt
    dsimp only
    cases hl : lookupProvider o.providers prov with
    | none => exact hfb
    | some p =>
      dsimp only
      by_cases hav : p.avail = true
      · rw [hav]
        simp only [eq_self_iff_true, if_true]
        cases hg : p.generate messages name with
        | ok t => rfl
        | error e => exact hfb
      · have hav' : p.avail = false := by revert hav; cases p.avail <;> simp
        rw [hav']
        simp only [Bool.false_eq_true, if_false]
        exact hfb
  refine ⟨hmain, ?_⟩
  intro input sid fo mc hsel hpr hnone
  unfold processMessage
  dsimp only
  rw [hsel]
  dsimp only
  have hcf := hmain (Msg.mk "system" SYSTEM_PROMPT :: o.memory.build_context sid input)
    mc.name mc.provider fo
  cases hpa : primaryAttempt o
      (Msg.mk "system" SYSTEM_PROMPT :: o.memory.build_context sid input)
      mc.name mc.provider with
  | none =>
    rw [hpa] at hcf
    dsimp only at hcf
    rw [hcf, hnone]
    rfl
  | some res =>
    cases res with
    | ok t => exact absurd hpa (hpr t)
    | error e =>
      rw [hpa] at hcf
      dsimp only at hcf
      rw [hcf, hnone]
      rfl

/-- Provider that is available but fails every generation. -/
def failP : ProviderB := ⟨true, fun _ _ => .error "down", fun _ _ => ([], some "down")⟩

/-- The single registry entry of the failing-orchestrator witness. -/
def failM : ModelConfig := ⟨"m1", "p1", 100, 0.5, false⟩

/-- Empty memory for the failing-orchestrator witness. -/
def failMM : MemoryManager := ⟨⟨20, fun _ => []⟩, none⟩

/-- Orchestrator with one available but failing provider and a one-model
registry, so the fallback list is empty. -/
def failOrch : Orchestrator := ⟨[("p1", failP)], [failM], failMM⟩

/-- Witness for C2: with the only provider failing and no eligible
fallback, the request still terminates with the unavailability sentinel as
the response body. -/
theorem callWithFallback_fallback_order_witness :
    processMessage failOrch "hi" "s" false =
      some (⟨UNAVAILABLE_MSG, failM.name⟩,
        failOrch.memory.save_interaction "s" "hi" UNAVAILABLE_MSG) :=
  (callWithFallback_fallback_order failOrch).2 "hi" "s" false failM (by rfl)
    (fun t h => Except.noConfusion (Option.some.inj h))
    (by rfl)

/-- Fast online model of the counterexample registry. -/
def cexM1 : ModelConfig := ⟨"m1", "p1", 100, 0.5, false⟩

/-- Slower, higher-quality model of the counterexample registry. -/
def cexM2 : ModelConfig := ⟨"m2", "p2", 200, 0.9, false⟩

/-- Available provider whose stream fails immediately, before emitting any
fragment. -/
def cexP1 : ProviderB := ⟨true, fun _ _ => .error "boom", fun _ _ => ([], some "boom")⟩

/-- Available provider whose generation and stream both succeed. -/
def cexP2 : ProviderB := ⟨true, fun _ _ => .ok "rescue", fun _ _ => (["rescue"], none)⟩

/-- Empty memory for the counterexample orchestrator. -/
def cexMM : MemoryManager := ⟨⟨20, fun _ => []⟩, none⟩

/-- Counterexample orchestrator: both providers available, the selected one
failing its stream before the first fragment. -/
def cexOrch : Orchestrator := ⟨[("p1", cexP1), ("p2", cexP2)], [cexM1, cexM2], cexMM⟩

/-- C6 counterexample: the streaming path performs no fallback even before
the first fragment is emitted.  Selection picks `cexM1`; its provider's
stream raises a `ProviderError` having emitted zero fragments; the
specification's fallback list would have succeeded with "rescue" (its first
entry streams and generates successfully); yet `process_stream` emits only
the error text and never any fallback output. -/
theorem processStream_no_prestream_fallback_cex :
    select_model cexOrch.registry "hi" false (availArg cexOrch) = .ok cexM1 ∧
    cexP1.genStream (Msg.mk "system" SYSTEM_PROMPT :: cexMM.build_context "sess" "hi")
      "m1" = ([], some "boom") ∧
    providerAvailable cexOrch.providers "p2" = true ∧
    trySequentially cexOrch
      (Msg.mk "system" SYSTEM_PROMPT :: cexMM.build_context "sess" "hi")
      (specFallbackList cexOrch "m1" false) = some "rescue" ∧
    processStream cexOrch "hi" "sess" false = some (["boom"], cexMM) :=
  ⟨rfl, rfl, rfl, rfl, rfl⟩

/-- C6 (amended): the streaming path performs the same selection as the
blocking path but no fallback at all: when the selected provider is missing
or unavailable it emits the fixed unavailability message as its only chunk;
once the provider streams, a `ProviderError` — whether before or after the
first fragment — is surfaced as a terminal chunk appended to the fragments
already emitted, is not retried, and the partial turn is not committed to
memory; only an error-free stream commits the turn. -/
theorem processStream_behaviour (o : Orchestrator) (input sid : String)
    (fo : Bool) (mc : ModelConfig)
    (hsel : select_model o.registry input fo (availArg o) = .ok mc) :
    (lookupProvider o.providers mc.provider = none →
      processStream o input sid fo = some ([UNAVAILABLE_MSG], o.memory)) ∧
    (∀ p, lookupProvider o.providers mc.provider = some p → p.avail = false →
      processStream o input sid fo = some ([UNAVAILABLE_MSG], o.memory)) ∧
    (∀ p chunks err, lookupProvider o.providers mc.provider = some p →
      p.avail = true →
      p.genStream (Msg.mk "system" SYSTEM_PROMPT :: o.memory.build_context sid input)
        mc.name = (chunks, some err) →
      processStream o input sid fo = some (chunks ++ [err], o.memory)) ∧
    (∀ p chunks, lookupProvider o.providers mc.provider = some p →
      p.avail = true →
      p.genStream (Msg.mk "system" SYSTEM_PROMPT :: o.memory.build_context sid input)
        mc.name = (chunks, none) →
      processStream o input sid fo =
        some (chunks, o.memory.save_interaction sid input (String.join chunks))) := by
  refine ⟨?_, ?_, ?_, ?_⟩
  · intro hl
    unfold processStream
    dsimp only
    rw [hsel]
    dsimp only
    rw [hl]
  · intro p hl hav
    unfold processStream
    dsimp only
    rw [hsel]
    dsimp only
    rw [hl]
    dsimp only
    rw [hav]
    simp only [Bool.false_eq_true, if_false]
  · intro p chunks err hl hav hgs
    unfold processStream
    dsimp only
    rw [hsel]
    dsimp only
    rw [hl]
    dsimp only
    rw [hav]
    simp only [eq_self_iff_true, if_true]
    rw [hgs]
  · intro p chunks hl hav hgs
    unfold processStream
    dsimp only
    rw [hsel]
    dsimp only
    rw [hl]
    dsimp only
    rw [hav]
    simp only [eq_self_iff_true, if_true]
    rw [hgs]

/-- Witness for the amended C6 at the counterexample state: the mid-stream
(here: pre-first-fragment) error is surfaced as the terminal chunk and
memory is untouched. -/
theorem processStream_behaviour_witness :
    processStream cexOrch "hi" "sess" false =
      some (([] : List String) ++ ["boom"], cexOrch.memory) :=
  (processStream_behaviour cexOrch "hi" "sess" false cexM1 (by rfl)).2.2.1
    cexP1 [] "boom" (by rfl) (by rfl) (by rfl)
